import Mathlib

/-!
Verification development for the AssetTracker repository: a shallow embedding
of the asset data layer (shared/schema.ts, server/storage.ts) and the HTTP
routes over it (server/routes.ts), with theorems settling the specification
claims about validation, tag uniqueness, spreadsheet import/export and
partial updates.

Modelling conventions:
* JavaScript values reaching the relevant code paths are strings, numbers,
  null or undefined; `undefined` is `Option.none`, the rest is `JsVal`.
  Numeric spreadsheet cells are modelled as integers (the claims only ever
  need the number 0); floating point formatting is never load-bearing here.
* The drizzle `db` handle (server/db.ts) executes SQL against the `assets`
  table declared in shared/schema.ts with `serial` primary key `id` and a
  UNIQUE constraint on `tag`.  A single INSERT or UPDATE statement whose
  result would violate the tag constraint fails atomically (no rows
  changed) and the thrown error is caught by the route's `catch` (500).
  drizzle's `db.update().set(values)` additionally throws the synchronous
  error "No values to set" when `values` has no defined keys, before any
  database access.  Storage operations therefore return `Except DbError`.
* zod schemas produced by drizzle-zod check only the shape of the data:
  `text().notNull()` and `decimal().notNull()` columns become plain
  `z.string()` (no non-emptiness or numeric check), nullable columns become
  `z.string().nullable().optional()`.  Validation errors are modelled as
  the list of offending field paths.
-/

namespace AssetTracker

/-- A defined JavaScript value as it reaches the asset code paths: a string,
a number (integer cells suffice for these claims), or `null`. -/
inductive JsVal where
  | str (s : String)
  | num (n : Int)
  | null
deriving DecidableEq

/-- JavaScript truthiness of a defined value: empty strings, `0` and `null`
are falsy. -/
def truthy : JsVal → Bool
  | .str s => !(s == "")
  | .num n => !(n == 0)
  | .null => false

/-- JavaScript truthiness of a possibly-undefined value (`undefined` is
falsy). -/
def jsTruthy : Option JsVal → Bool
  | none => false
  | some v => truthy v

/-- `String(v)` on a defined value. -/
def jsString : JsVal → String
  | .str s => s
  | .num n => toString n
  | .null => "null"

/-- Outcome of JS `parseFloat`: `NaN`, a signed infinity, or a finite value
(modelled exactly as a rational). -/
inductive JsNum where
  | nan
  | posInf
  | negInf
  | fin (q : ℚ)
deriving DecidableEq

/-- Whitespace skipped by `parseFloat`. -/
def isJsSpace (c : Char) : Bool :=
  c == ' ' || c == '\t' || c == '\n' || c == '\r' || c == '\x0b' || c == '\x0c'

/-- Value of a digit string read in base 10. -/
def digitsVal (l : List Char) : ℕ :=
  l.foldl (fun a c => 10 * a + (c.toNat - 48)) 0

/-- `needle` is a leading segment of `haystack`. -/
def leadsWith : List Char → List Char → Bool
  | _, [] => true
  | [], _ :: _ => false
  | c :: cs, d :: ds => c == d && leadsWith cs ds

/-- JS `parseFloat`: skip leading whitespace, read an optional sign, then
`Infinity` or the longest decimal prefix `digits[.digits][(e|E)[sign]digits]`
(trailing garbage ignored, a malformed exponent ignored); `NaN` when no
digit is read. -/
def jsParseFloat (s : String) : JsNum :=
  let cs := s.data.dropWhile isJsSpace
  let sign : ℚ := if cs.head? = some '-' then -1 else 1
  let cs := if cs.head? = some '-' || cs.head? = some '+' then cs.tail else cs
  if leadsWith cs "Infinity".data then
    if sign = 1 then .posInf else .negInf
  else
    let ds := cs.takeWhile (·.isDigit)
    let cs1 := cs.dropWhile (·.isDigit)
    let fs := if cs1.head? = some '.' then cs1.tail.takeWhile (·.isDigit) else []
    let cs2 := if cs1.head? = some '.' then cs1.tail.dropWhile (·.isDigit) else cs1
    if ds.isEmpty && fs.isEmpty then .nan
    else
      let mant : ℚ := (digitsVal ds : ℚ) + (digitsVal fs : ℚ) / (10 : ℚ) ^ fs.length
      let exp : ℤ :=
        match cs2 with
        | c :: r =>
          if c == 'e' || c == 'E' then
            let esign : ℤ := if r.head? = some '-' then -1 else 1
            let r2 := if r.head? = some '-' || r.head? = some '+' then r.tail else r
            let eds := r2.takeWhile (·.isDigit)
            if eds.isEmpty then 0 else esign * (digitsVal eds : ℤ)
          else 0
        | [] => 0
      .fin (sign * mant * (10 : ℚ) ^ exp)

/-- The client form schema's cost refinement (client/src/components/
asset-modal.tsx lines 16-18): `!isNaN(parseFloat(val)) && parseFloat(val) >= 0`. -/
def costRefineOk (s : String) : Bool :=
  match jsParseFloat s with
  | .nan => false
  | .negInf => false
  | .posInf => true
  | .fin q => decide (0 ≤ q)

/-- The payload accepted by the insert schema (shared/schema.ts
`InsertAsset`): the `assets` columns minus `id`. -/
structure InsertAsset where
  name : String
  type : String
  tag : String
  cost : String
  serialNumber : Option String
  acquisitionDate : Option String
deriving DecidableEq

/-- A persisted row of the `assets` table (shared/schema.ts `Asset`). -/
structure Asset where
  id : Int
  name : String
  type : String
  tag : String
  serialNumber : Option String
  cost : String
  acquisitionDate : Option String
deriving DecidableEq

/-- A `Partial<InsertAsset>` patch: absent keys are `none`; for the nullable
columns a present key can itself carry SQL NULL (`some none`). -/
structure UpdatePatch where
  name : Option String
  type : Option String
  tag : Option String
  cost : Option String
  serialNumber : Option (Option String)
  acquisitionDate : Option (Option String)
deriving DecidableEq

/-- The persisted `assets` table plus the serial-id sequence. -/
structure StoreState where
  assets : List Asset
  nextId : Int
deriving DecidableEq

/-- Row created from an insert payload by assigning the next serial id. -/
def mkAsset (id : Int) (a : InsertAsset) : Asset :=
  ⟨id, a.name, a.type, a.tag, a.serialNumber, a.cost, a.acquisitionDate⟩

/-- Forget the system-assigned id of a row. -/
def stripId (a : Asset) : InsertAsset :=
  ⟨a.name, a.type, a.tag, a.cost, a.serialNumber, a.acquisitionDate⟩

/-- The drizzle "spread merge" applied by `UPDATE ... SET`: each present key
of the patch overwrites the column, absent keys keep the prior value. -/
def applyPatch (a : Asset) (p : UpdatePatch) : Asset :=
  { a with
    name := p.name.getD a.name
    type := p.type.getD a.type
    tag := p.tag.getD a.tag
    cost := p.cost.getD a.cost
    serialNumber := p.serialNumber.getD a.serialNumber
    acquisitionDate := p.acquisitionDate.getD a.acquisitionDate }

/-- Errors thrown inside the storage layer (caught by the routes as 500s):
a UNIQUE-constraint violation from the database, or drizzle's synchronous
"No values to set" error from `db.update().set({})`. -/
inductive DbError where
  | uniqueViolation
  | noValuesToSet
deriving DecidableEq

/-- `storage.getAsset(id)` (server/storage.ts lines 43-46). -/
def getAsset (st : StoreState) (id : Int) : Option Asset :=
  st.assets.find? (fun b => b.id == id)

/-- `storage.getAssetByTag(tag)` (server/storage.ts lines 48-51). -/
def getAssetByTag (st : StoreState) (tag : String) : Option Asset :=
  st.assets.find? (fun b => b.tag == tag)

/-- No existing row carries tag `t`. -/
def tagFresh (l : List Asset) (t : String) : Bool :=
  l.all (fun b => !(b.tag == t))

/-- `storage.createAsset` (server/storage.ts lines 53-59): a single-row
INSERT; the UNIQUE constraint on `tag` rejects it when the tag already
exists. -/
def createAsset (st : StoreState) (a : InsertAsset) :
    Except DbError (Asset × StoreState) :=
  if tagFresh st.assets a.tag then
    let asset := mkAsset st.nextId a
    .ok (asset, ⟨st.assets ++ [asset], st.nextId + 1⟩)
  else .error .uniqueViolation

/-- Serial-id assignment performed by a multi-row INSERT. -/
def assignIds : Int → List InsertAsset → List Asset
  | _, [] => []
  | n, a :: as => mkAsset n a :: assignIds (n + 1) as

/-- The UNIQUE-constraint check a multi-row INSERT performs: every inserted
tag must be fresh in the table and distinct from the other inserted tags. -/
def batchTagsOk (l : List Asset) : List InsertAsset → Bool
  | [] => true
  | a :: as => tagFresh l a.tag && as.all (fun b => !(b.tag == a.tag)) && batchTagsOk l as

/-- `storage.createManyAssets` (server/storage.ts lines 78-86): empty input
returns `[]` at once; otherwise one atomic multi-row INSERT that either
inserts every row or fails as a whole on a tag-uniqueness violation. -/
def createManyAssets (st : StoreState) (as : List InsertAsset) :
    Except DbError (List Asset × StoreState) :=
  if as.isEmpty then .ok ([], st)
  else if batchTagsOk st.assets as then
    let created := assignIds st.nextId as
    .ok (created, ⟨st.assets ++ created, st.nextId + (as.length : Int)⟩)
  else .error .uniqueViolation

/-- Whether a partial-update patch carries at least one present key, as
drizzle sees it: `db.update().set(values)` drops undefined values and
throws `Error("No values to set")` when none remain. -/
def patchHasValues (p : UpdatePatch) : Bool :=
  p.name.isSome || p.type.isSome || p.tag.isSome || p.cost.isSome
    || p.serialNumber.isSome || p.acquisitionDate.isSome

/-- The UNIQUE-constraint check an `UPDATE ... WHERE id = ?` performs on the
modified rows: when the patch sets the tag, no unmodified row may already
hold it, and at most one row may be modified (all modified rows would
receive the same tag). -/
def updConflict (st : StoreState) (id : Int) (p : UpdatePatch) : Bool :=
  match p.tag with
  | none => false
  | some t =>
    st.assets.any (fun b => !(b.id == id) && b.tag == t)
      || decide (2 ≤ (st.assets.countP (fun b => b.id == id)))

/-- `storage.updateAsset` (server/storage.ts lines 61-68): drizzle's
`.set(updateData)` throws "No values to set" when the patch has no present
keys, before any database access; otherwise UPDATE the rows matching `id`
with the present patch columns and return the first updated row, or `none`
when no row matched; a tag-uniqueness violation fails the statement with no
change. -/
def updateAsset (st : StoreState) (id : Int) (p : UpdatePatch) :
    Except DbError (Option Asset × StoreState) :=
  if !patchHasValues p then .error .noValuesToSet
  else
    match st.assets.find? (fun b => b.id == id) with
    | none => .ok (none, st)
    | some _ =>
      if updConflict st id p then .error .uniqueViolation
      else
        let newAssets := st.assets.map (fun b => if b.id == id then applyPatch b p else b)
        .ok (newAssets.find? (fun b => b.id == id), ⟨newAssets, st.nextId⟩)

/-- A JSON request body projected onto the asset schema's keys (zod strips
unknown keys); each key is absent or a `JsVal`. -/
structure RawBody where
  name : Option JsVal
  type : Option JsVal
  tag : Option JsVal
  cost : Option JsVal
  serialNumber : Option JsVal
  acquisitionDate : Option JsVal
deriving DecidableEq

/-- A present string value, as `z.string()` requires. -/
def isStringVal : Option JsVal → Bool
  | some (.str _) => true
  | _ => false

/-- What `z.string().nullable().optional()` accepts: absent, null, or a
string. -/
def isNullableOptString : Option JsVal → Bool
  | none => true
  | some .null => true
  | some (.str _) => true
  | _ => false

/-- What `z.string().optional()` accepts: absent or a string (null is
rejected). -/
def isOptString : Option JsVal → Bool
  | none => true
  | some (.str _) => true
  | _ => false

/-- The string carried by a string value (only read after `isStringVal`). -/
def getStr : Option JsVal → String
  | some (.str s) => s
  | _ => ""

/-- The nullable string carried by a value (absent and null both persist as
SQL NULL on insert). -/
def getOptStr : Option JsVal → Option String
  | some (.str s) => some s
  | _ => none

/-- The field paths `insertAssetSchema` reports as issues, in declaration
order of the columns. -/
def insertErrs (b : RawBody) : List String :=
  (if isStringVal b.name then [] else ["name"])
    ++ (if isStringVal b.type then [] else ["type"])
    ++ (if isStringVal b.tag then [] else ["tag"])
    ++ (if isNullableOptString b.serialNumber then [] else ["serialNumber"])
    ++ (if isStringVal b.cost then [] else ["cost"])
    ++ (if isNullableOptString b.acquisitionDate then [] else ["acquisitionDate"])

/-- `insertAssetSchema.parse` (shared/schema.ts lines 267-269):
`createInsertSchema(assets).omit({id: true})`.  drizzle-zod turns the
not-null text and decimal columns into plain required `z.string()` (no
emptiness or numeric check) and the nullable columns into
`z.string().nullable().optional()`; zod collects one issue per bad field. -/
def insertAssetSchemaParse (b : RawBody) : Except (List String) InsertAsset :=
  if insertErrs b = [] then
    .ok ⟨getStr b.name, getStr b.type, getStr b.tag, getStr b.cost,
      getOptStr b.serialNumber, getOptStr b.acquisitionDate⟩
  else .error (insertErrs b)

/-- The field paths `insertAssetSchema.partial()` reports as issues. -/
def partialErrs (b : RawBody) : List String :=
  (if isOptString b.name then [] else ["name"])
    ++ (if isOptString b.type then [] else ["type"])
    ++ (if isOptString b.tag then [] else ["tag"])
    ++ (if isNullableOptString b.serialNumber then [] else ["serialNumber"])
    ++ (if isOptString b.cost then [] else ["cost"])
    ++ (if isNullableOptString b.acquisitionDate then [] else ["acquisitionDate"])

/-- `insertAssetSchema.partial().parse` (server/routes.ts line 87): every
field becomes optional; a present required field must still be a string
(null is rejected by `z.string().optional()`), a present nullable field may
also be null. -/
def insertAssetSchemaPartialParse (b : RawBody) :
    Except (List String) UpdatePatch :=
  let reqField : Option JsVal → Option String
    | some (.str s) => some s
    | _ => none
  let nulField : Option JsVal → Option (Option String)
    | some (.str s) => some (some s)
    | some .null => some none
    | _ => none
  if partialErrs b = [] then
    .ok ⟨reqField b.name, reqField b.type, reqField b.tag, reqField b.cost,
      nulField b.serialNumber, nulField b.acquisitionDate⟩
  else .error (partialErrs b)

/-- The field paths the client form schema reports as issues. -/
def formErrs (b : RawBody) : List String :=
  (if isStringVal b.name then [] else ["name"])
    ++ (if isStringVal b.type then [] else ["type"])
    ++ (if isStringVal b.tag then [] else ["tag"])
    ++ (if isNullableOptString b.serialNumber then [] else ["serialNumber"])
    ++ (if isStringVal b.cost && costRefineOk (getStr b.cost) then [] else ["cost"])
    ++ (if isOptString b.acquisitionDate then [] else ["acquisitionDate"])

/-- The client form schema (client/src/components/asset-modal.tsx lines
15-20): `insertAssetSchema` extended with the `parseFloat` cost refinement
and `acquisitionDate: z.string().optional()`. -/
def formSchemaParse (b : RawBody) : Except (List String) InsertAsset :=
  if formErrs b = [] then
    .ok ⟨getStr b.name, getStr b.type, getStr b.tag, getStr b.cost,
      getOptStr b.serialNumber, getOptStr b.acquisitionDate⟩
  else .error (formErrs b)

/-- Response of `POST /api/assets` (server/routes.ts lines 56-77):
400 with field errors, 409 on an existing tag, 201 with the created asset,
or 500. -/
inductive CreateResponse where
  | badRequest (errs : List String)
  | conflict
  | created (a : Asset)
  | serverError
deriving DecidableEq

/-- `POST /api/assets` (server/routes.ts lines 56-77). -/
def createRoute (st : StoreState) (b : RawBody) : CreateResponse × StoreState :=
  match insertAssetSchemaParse b with
  | .error es => (.badRequest es, st)
  | .ok data =>
    if (getAssetByTag st data.tag).isSome then (.conflict, st)
    else
      match createAsset st data with
      | .ok (a, st') => (.created a, st')
      | .error _ => (.serverError, st)

/-- Response of `PUT /api/assets/:id` (server/routes.ts lines 80-112):
400 with field errors, 409 on a tag conflict, 404 when no row has the id,
200 with the updated asset, or 500. -/
inductive UpdateResponse where
  | badRequest (errs : List String)
  | conflict
  | notFound
  | updated (a : Asset)
  | serverError
deriving DecidableEq

/-- The route-level conflict check of `PUT /api/assets/:id` (server/routes.ts
lines 90-95): only run when the parsed patch's tag is truthy (a non-empty
string), and it fires when some asset with a different id holds that tag. -/
def routeTagConflict (st : StoreState) (id : Int) (p : UpdatePatch) : Bool :=
  match p.tag with
  | some t =>
    !(t == "") &&
      (match getAssetByTag st t with
        | some b => !(b.id == id)
        | none => false)
  | none => false

/-- `PUT /api/assets/:id` (server/routes.ts lines 80-112). -/
def updateRoute (st : StoreState) (id : Int) (b : RawBody) :
    UpdateResponse × StoreState :=
  match insertAssetSchemaPartialParse b with
  | .error es => (.badRequest es, st)
  | .ok p =>
    if routeTagConflict st id p then (.conflict, st)
    else
      match updateAsset st id p with
      | .error _ => (.serverError, st)
      | .ok (none, _) => (.notFound, st)
      | .ok (some a, st') => (.updated a, st')

/-- A spreadsheet data row as produced by `XLSX.utils.sheet_to_json`: header
keys mapped to cell values (blank cells are simply absent). -/
abbrev Row := List (String × JsVal)

/-- `row[key]` on a parsed spreadsheet row. -/
def rowGet (r : Row) (k : String) : Option JsVal :=
  (r.find? (fun kv => kv.1 == k)).map (fun kv => kv.2)

/-- The JS `||` chain over a list of candidate header keys: the first truthy
cell wins; with no truthy cell the chain's value is the last key's cell
(possibly `undefined`). -/
def orChain (r : Row) : List String → Option JsVal
  | [] => none
  | [k] => rowGet r k
  | k :: ks => if jsTruthy (rowGet r k) then rowGet r k else orChain r ks

/-- Header aliases for `name` (server/routes.ts line 160). -/
def nameAliases : List String := ["Asset Name", "Name", "asset_name", "name"]

/-- Header aliases for `type` (server/routes.ts line 161). -/
def typeAliases : List String := ["Asset Type", "Type", "asset_type", "type"]

/-- Header aliases for `tag` (server/routes.ts line 162). -/
def tagAliases : List String := ["Asset Tag", "Tag", "asset_tag", "tag"]

/-- Header aliases for `cost` (server/routes.ts line 163). -/
def costAliases : List String := ["Cost", "cost", "Price", "price"]

/-- Header aliases for `serialNumber` (server/routes.ts line 164). -/
def serialAliases : List String :=
  ["Serial Number", "SerialNumber", "serial_number", "serial"]

/-- Header aliases for `acquisitionDate` (server/routes.ts line 165). -/
def dateAliases : List String :=
  ["Acquisition Date", "AcquisitionDate", "acquisition_date", "date"]

/-- A single quote character, for the import error message. -/
def sq : String := String.singleton '\x27'

/-- The row-indexed missing-required-fields message (server/routes.ts
line 168). -/
def missingMsg (i : ℕ) : String :=
  "Row " ++ toString (i + 2) ++ ": Missing required fields (Name, Type, Tag, Cost)"

/-- The row-indexed duplicate-tag message (server/routes.ts line 175). -/
def tagExistsMsg (i : ℕ) (tag : String) : String :=
  "Row " ++ toString (i + 2) ++ ": Asset tag " ++ sq ++ tag ++ sq ++ " already exists"

/-- Outcome of scanning one imported row. -/
inductive RowOutcome where
  | ok (a : InsertAsset)
  | err (msg : String)
deriving DecidableEq

/-- Processing of data row `i` by `POST /api/assets/import` (server/routes.ts
lines 154-196): alias extraction via `||` chains, the
`!name || !type || !tag || cost === undefined` guard, the persisted-tag
lookup, string coercion, and the (always-succeeding) schema parse. -/
def processRow (st : StoreState) (i : ℕ) (r : Row) : RowOutcome :=
  let nameV := orChain r nameAliases
  let typeV := orChain r typeAliases
  let tagV := orChain r tagAliases
  let costV := orChain r costAliases
  let serialV := orChain r serialAliases
  let dateV := orChain r dateAliases
  if !jsTruthy nameV || !jsTruthy typeV || !jsTruthy tagV || costV.isNone then
    .err (missingMsg i)
  else
    let tagS := jsString (tagV.getD .null)
    if (getAssetByTag st tagS).isSome then
      .err (tagExistsMsg i tagS)
    else
      let body : RawBody :=
        { name := some (.str (jsString (nameV.getD .null)))
          type := some (.str (jsString (typeV.getD .null)))
          tag := some (.str tagS)
          cost := some (.str (jsString (costV.getD .null)))
          serialNumber :=
            if jsTruthy serialV then some (.str (jsString (serialV.getD .null))) else none
          acquisitionDate :=
            if jsTruthy dateV then some (.str (jsString (dateV.getD .null))) else none }
      match insertAssetSchemaParse body with
      | .ok a => .ok a
      | .error es =>
        .err ("Row " ++ toString (i + 2) ++ ": " ++ String.intercalate ", " es)

/-- The import route's row loop (server/routes.ts lines 154-197), started at
data index `i`: accumulates the batch and the error list in row order. -/
def scanRowsAux (st : StoreState) : ℕ → List Row → List InsertAsset × List String
  | _, [] => ([], [])
  | i, r :: rs =>
    let rest := scanRowsAux st (i + 1) rs
    match processRow st i r with
    | .ok a => (a :: rest.1, rest.2)
    | .err m => (rest.1, m :: rest.2)

/-- The import route's row loop from the first data row. -/
def scanRows (st : StoreState) (rows : List Row) : List InsertAsset × List String :=
  scanRowsAux st 0 rows

/-- Response of `POST /api/assets/import` (server/routes.ts lines 134-219). -/
inductive ImportResponse where
  | emptyFile
  | noValid (errors : List String)
  | success (imported : ℕ) (errors : Option (List String)) (assets : List Asset)
  | serverError
deriving DecidableEq

/-- `POST /api/assets/import` on the parsed rows of the first sheet
(server/routes.ts lines 134-219): empty file is a 400; if there are errors
and no row passed, a 400 carrying the errors; otherwise one batch create,
whose thrown failure is the catch-all 500, else a success summary. -/
def importRoute (st : StoreState) (rows : List Row) :
    ImportResponse × StoreState :=
  if rows.isEmpty then (.emptyFile, st)
  else
    let p := scanRows st rows
    if !p.2.isEmpty && p.1.isEmpty then (.noValid p.2, st)
    else
      match createManyAssets st p.1 with
      | .error _ => (.serverError, st)
      | .ok (created, st') =>
        (.success created.length (if p.2.isEmpty then none else some p.2) created, st')

/-- The spreadsheet row emitted for one asset by `GET /api/assets/export`
(server/routes.ts lines 228-235): fixed headers, absent optionals emitted
as the empty string. -/
def exportRow (a : Asset) : Row :=
  [("Asset Name", .str a.name),
   ("Asset Type", .str a.type),
   ("Asset Tag", .str a.tag),
   ("Serial Number", .str (a.serialNumber.getD "")),
   ("Cost", .str a.cost),
   ("Acquisition Date", .str (a.acquisitionDate.getD ""))]

/-- `GET /api/assets/export` (server/routes.ts lines 222-248): the rows of
the produced single-sheet workbook, one per persisted asset. -/
def exportAssets (st : StoreState) : List Row :=
  st.assets.map exportRow

/-- Modelled from the spec: the fixed alias priority scheme the specification
prescribes for every field — canonical label, then the PascalCase-no-space
variant, then the snake_case-prefixed variant, then the lowercase bare
variant.  Stated from the spec's words only, for comparison with the code's
per-field alias tables. -/
def specAliasScheme (canonical pascalNoSpace snakePrefixed bare : String) :
    List String :=
  [canonical, pascalNoSpace, snakePrefixed, bare]

/-- Modelled from the spec: the alias list its scheme yields for `name`. -/
def specNameAliases : List String :=
  specAliasScheme "Asset Name" "AssetName" "asset_name" "name"

/-- Modelled from the spec: the alias list its scheme yields for `cost`
(whose canonical label "Cost" is a single word, so the variants collapse
onto "Cost" and "cost"). -/
def specCostAliases : List String :=
  specAliasScheme "Cost" "Cost" "cost" "cost"

/-- The tag-uniqueness invariant: no two persisted assets share a tag. -/
def NoDupTags (st : StoreState) : Prop :=
  (st.assets.map (fun a => a.tag)).Pairwise (· ≠ ·)

/-- Uniqueness of the serial primary key (guaranteed by the schema's
`serial("id").primaryKey()`). -/
def UniqueIds (st : StoreState) : Prop :=
  (st.assets.map (fun a => a.id)).Pairwise (· ≠ ·)

/-! ### Helper lemmas -/

theorem jsTruthy_isSome {v : Option JsVal} (h : jsTruthy v = true) : ∃ w, v = some w := by
  cases v with
  | none => simp [jsTruthy] at h
  | some w => exact ⟨w, rfl⟩

theorem getAssetByTag_eq_none {st : StoreState} {t : String} :
    getAssetByTag st t = none ↔ tagFresh st.assets t = true := by
  simp [getAssetByTag, tagFresh, List.find?_eq_none, List.all_eq_true]

theorem applyPatch_id (a : Asset) (p : UpdatePatch) : (applyPatch a p).id = a.id := rfl

theorem find?_map_applyPatch (l : List Asset) (p : UpdatePatch) (id : Int) :
    (l.map (fun b => if b.id == id then applyPatch b p else b)).find?
        (fun b => b.id == id)
      = (l.find? (fun b => b.id == id)).map (fun b => applyPatch b p) := by
  induction l with
  | nil => rfl
  | cons x l ih =>
    cases hx : x.id == id with
    | true =>
      have hfx : (if (x.id == id) = true then applyPatch x p else x) = applyPatch x p := by
        simp [hx]
      have h1 : ((applyPatch x p).id == id) = true := by rw [applyPatch_id]; exact hx
      rw [List.map_cons, hfx]
      have e2 :
          List.find? (fun b => b.id == id)
              (applyPatch x p ::
                List.map (fun b => if b.id == id then applyPatch b p else b) l)
            = some (applyPatch x p) :=
        List.find?_cons_of_pos _ h1
      have e3 : List.find? (fun b => b.id == id) (x :: l) = some x :=
        List.find?_cons_of_pos _ hx
      rw [e2, e3]
      rfl
    | false =>
      have hfx : (if (x.id == id) = true then applyPatch x p else x) = x := by
        simp [hx]
      rw [List.map_cons, hfx]
      have e2 :
          List.find? (fun b => b.id == id)
              (x :: List.map (fun b => if b.id == id then applyPatch b p else b) l)
            = List.find? (fun b => b.id == id)
                (List.map (fun b => if b.id == id then applyPatch b p else b) l) :=
        List.find?_cons_of_neg _ (by simp [hx])
      have e3 : List.find? (fun b => b.id == id) (x :: l)
          = List.find? (fun b => b.id == id) l :=
        List.find?_cons_of_neg _ (by simp [hx])
      rw [e2, e3, ih]

theorem find?_eq_of_mem_unique {β : Type _} [BEq β] [LawfulBEq β] (f : Asset → β) :
    ∀ (l : List Asset), (l.map f).Pairwise (· ≠ ·) → ∀ a ∈ l,
      l.find? (fun x => f x == f a) = some a := by
  intro l
  induction l with
  | nil => intro _ a ha; cases ha
  | cons x l ih =>
    intro hl a ha
    rw [List.map_cons, List.pairwise_cons] at hl
    rcases List.mem_cons.mp ha with rfl | ha'
    · exact List.find?_cons_of_pos _ (by simp)
    · have hne : f x ≠ f a := hl.1 (f a) (List.mem_map.mpr ⟨a, ha', rfl⟩)
      rw [List.find?_cons_of_neg _ (by simp [hne]), ih hl.2 a ha']

theorem mem_unique_field {β : Type _} (f : Asset → β) :
    ∀ (l : List Asset), (l.map f).Pairwise (· ≠ ·) →
      ∀ a ∈ l, ∀ b ∈ l, f a = f b → a = b := by
  intro l
  induction l with
  | nil => intro _ a ha; cases ha
  | cons x l ih =>
    intro hl a ha b hb hf
    rw [List.map_cons, List.pairwise_cons] at hl
    rcases List.mem_cons.mp ha with rfl | ha' <;> rcases List.mem_cons.mp hb with rfl | hb'
    · rfl
    · exact absurd hf (hl.1 (f b) (List.mem_map.mpr ⟨b, hb', rfl⟩))
    · exact absurd hf.symm (hl.1 (f a) (List.mem_map.mpr ⟨a, ha', rfl⟩))
    · exact ih hl.2 a ha' b hb' hf

theorem countP_le_one_of_unique {β : Type _} [BEq β] [LawfulBEq β] (f : Asset → β)
    (c : β) :
    ∀ (l : List Asset), (l.map f).Pairwise (· ≠ ·) →
      l.countP (fun x => f x == c) ≤ 1 := by
  intro l
  induction l with
  | nil => intro _; simp
  | cons x l ih =>
    intro hl
    rw [List.map_cons, List.pairwise_cons] at hl
    rw [List.countP_cons]
    cases hx : f x == c with
    | false => simpa [hx] using ih hl.2
    | true =>
      have hc : f x = c := eq_of_beq hx
      have hz : l.countP (fun x => f x == c) = 0 := by
        rw [List.countP_eq_zero]
        intro b hb
        have : f x ≠ f b := hl.1 (f b) (List.mem_map.mpr ⟨b, hb, rfl⟩)
        simp only [Bool.not_eq_true]
        exact beq_eq_false_iff_ne.mpr fun hbc => this (by rw [hc, ← hbc])
      simp [hz]

theorem batchTagsOk_intro (l : List Asset) :
    ∀ (as : List InsertAsset), (∀ a ∈ as, tagFresh l a.tag = true) →
      (as.map (fun a => a.tag)).Pairwise (· ≠ ·) → batchTagsOk l as = true := by
  intro as
  induction as with
  | nil => intro _ _; rfl
  | cons a as ih =>
    intro hf hp
    rw [List.map_cons, List.pairwise_cons] at hp
    show (tagFresh l a.tag && as.all (fun b => !(b.tag == a.tag))
        && batchTagsOk l as) = true
    rw [Bool.and_eq_true, Bool.and_eq_true]
    refine ⟨⟨hf a (List.mem_cons_self a as), ?_⟩,
      ih (fun x hx => hf x (List.mem_cons_of_mem a hx)) hp.2⟩
    rw [List.all_eq_true]
    intro b hb
    have hne : a.tag ≠ b.tag := hp.1 b.tag (List.mem_map.mpr ⟨b, hb, rfl⟩)
    simp only [Bool.not_eq_eq_eq_not, Bool.not_true]
    exact beq_eq_false_iff_ne.mpr (Ne.symm hne)

theorem batchTagsOk_elim (l : List Asset) :
    ∀ (as : List InsertAsset), batchTagsOk l as = true →
      (∀ a ∈ as, tagFresh l a.tag = true)
        ∧ (as.map (fun a => a.tag)).Pairwise (· ≠ ·) := by
  intro as
  induction as with
  | nil => intro _; exact ⟨fun a ha => absurd ha (List.not_mem_nil a), List.Pairwise.nil⟩
  | cons a as ih =>
    intro h
    have h' : (tagFresh l a.tag && as.all (fun b => !(b.tag == a.tag))
        && batchTagsOk l as) = true := h
    rw [Bool.and_eq_true, Bool.and_eq_true] at h'
    obtain ⟨⟨hfa, hall⟩, hrest⟩ := h'
    obtain ⟨hf, hp⟩ := ih hrest
    refine ⟨?_, ?_⟩
    · intro x hx
      rcases List.mem_cons.mp hx with rfl | hx'
      · exact hfa
      · exact hf x hx'
    · rw [List.map_cons, List.pairwise_cons]
      refine ⟨?_, hp⟩
      intro t ht
      obtain ⟨b, hb, rfl⟩ := List.mem_map.mp ht
      rw [List.all_eq_true] at hall
      have := hall b hb
      simp only [Bool.not_eq_eq_eq_not, Bool.not_true] at this
      exact Ne.symm (beq_eq_false_iff_ne.mp this)

theorem length_assignIds : ∀ (n : Int) (as : List InsertAsset),
    (assignIds n as).length = as.length := by
  intro n as
  induction as generalizing n with
  | nil => rfl
  | cons a as ih => simp [assignIds, ih]

theorem map_tag_assignIds : ∀ (n : Int) (as : List InsertAsset),
    (assignIds n as).map (fun a => a.tag) = as.map (fun a => a.tag) := by
  intro n as
  induction as generalizing n with
  | nil => rfl
  | cons a as ih => simp [assignIds, ih, mkAsset]

theorem map_stripId_assignIds : ∀ (n : Int) (as : List InsertAsset),
    (assignIds n as).map stripId = as := by
  intro n as
  induction as generalizing n with
  | nil => rfl
  | cons a as ih => simp [assignIds, ih, mkAsset, stripId]

theorem orChain_eq_of_find? (r : Row) :
    ∀ (ks : List String) (k : String),
      ks.find? (fun k2 => jsTruthy (rowGet r k2)) = some k →
      orChain r ks = rowGet r k ∧ jsTruthy (rowGet r k) = true := by
  intro ks
  induction ks with
  | nil => intro k h; simp [List.find?] at h
  | cons k0 ks ih =>
    intro k h
    cases hk : jsTruthy (rowGet r k0) with
    | true =>
      have h0 : (k0 :: ks).find? (fun k2 => jsTruthy (rowGet r k2)) = some k0 :=
        List.find?_cons_of_pos _ hk
      rw [h0] at h
      obtain rfl : k0 = k := Option.some_injective _ h
      refine ⟨?_, hk⟩
      cases ks with
      | nil => rfl
      | cons k1 ks => simp [orChain, hk]
    | false =>
      have h0 : (k0 :: ks).find? (fun k2 => jsTruthy (rowGet r k2))
          = ks.find? (fun k2 => jsTruthy (rowGet r k2)) :=
        List.find?_cons_of_neg _ (by simp [hk])
      rw [h0] at h
      obtain ⟨he, ht⟩ := ih k h
      refine ⟨?_, ht⟩
      cases ks with
      | nil => simp [List.find?] at h
      | cons k1 ks => simp [orChain, hk, he]

theorem orChain_cost_none (r : Row) :
    orChain r costAliases = none ↔
      jsTruthy (rowGet r "Cost") = false ∧ jsTruthy (rowGet r "cost") = false
        ∧ jsTruthy (rowGet r "Price") = false ∧ rowGet r "price" = none := by
  show (if jsTruthy (rowGet r "Cost") then rowGet r "Cost"
      else if jsTruthy (rowGet r "cost") then rowGet r "cost"
      else if jsTruthy (rowGet r "Price") then rowGet r "Price"
      else rowGet r "price") = none ↔ _
  cases h1 : jsTruthy (rowGet r "Cost") with
  | true =>
    obtain ⟨w, hw⟩ := jsTruthy_isSome h1
    simp [hw]
  | false =>
    cases h2 : jsTruthy (rowGet r "cost") with
    | true =>
      obtain ⟨w, hw⟩ := jsTruthy_isSome h2
      simp [hw]
    | false =>
      cases h3 : jsTruthy (rowGet r "Price") with
      | true =>
        obtain ⟨w, hw⟩ := jsTruthy_isSome h3
        simp [hw]
      | false => simp

theorem scanRowsAux_eq (st : StoreState) :
    ∀ (rows : List Row) (n : ℕ),
      scanRowsAux st n rows =
        ((rows.enumFrom n).filterMap fun q =>
            match processRow st q.1 q.2 with
            | .ok a => some a
            | .err _ => none,
          (rows.enumFrom n).filterMap fun q =>
            match processRow st q.1 q.2 with
            | .err m => some m
            | .ok _ => none) := by
  intro rows
  induction rows with
  | nil => intro n; rfl
  | cons r rs ih =>
    intro n
    show (match processRow st n r with
      | .ok a => (a :: (scanRowsAux st (n + 1) rs).1, (scanRowsAux st (n + 1) rs).2)
      | .err m => ((scanRowsAux st (n + 1) rs).1, m :: (scanRowsAux st (n + 1) rs).2)) = _
    rw [ih (n + 1)]
    cases hpr : processRow st n r with
    | ok a => simp [List.enumFrom, List.filterMap_cons, hpr]
    | err m => simp [List.enumFrom, List.filterMap_cons, hpr]

theorem processRow_err_of_missing (st : StoreState) (i : ℕ) (r : Row)
    (h : (!jsTruthy (orChain r nameAliases) || !jsTruthy (orChain r typeAliases)
        || !jsTruthy (orChain r tagAliases) || (orChain r costAliases).isNone) = true) :
    processRow st i r = .err (missingMsg i) := by
  unfold processRow
  rw [if_pos h]

theorem processRow_ok_tag_none (st : StoreState) (i : ℕ) (r : Row) (a : InsertAsset)
    (h : processRow st i r = .ok a) : getAssetByTag st a.tag = none := by
  unfold processRow at h
  dsimp only at h
  by_cases hg : (!jsTruthy (orChain r nameAliases) || !jsTruthy (orChain r typeAliases)
      || !jsTruthy (orChain r tagAliases) || (orChain r costAliases).isNone) = true
  · rw [if_pos hg] at h; cases h
  · rw [if_neg hg] at h
    cases hopt : getAssetByTag st (jsString ((orChain r tagAliases).getD .null)) with
    | some b => rw [hopt] at h; simp at h
    | none =>
      rw [hopt] at h
      simp only [Option.isSome_none, Bool.false_eq_true, if_false] at h
      cases hs : jsTruthy (orChain r serialAliases) <;>
        cases hd : jsTruthy (orChain r dateAliases) <;>
          · rw [hs, hd] at h
            simp only [insertAssetSchemaParse, isStringVal, isNullableOptString, getStr,
              getOptStr, if_true, if_false, List.append_nil, List.nil_append,
              List.isEmpty_nil] at h
            cases h
            exact hopt

theorem scanRowsAux_err_mem (st : StoreState) (m : String) :
    ∀ (rows : List Row) (n i : ℕ) (r : Row), rows.get? i = some r →
      processRow st (n + i) r = .err m → m ∈ (scanRowsAux st n rows).2 := by
  intro rows
  induction rows with
  | nil => intro n i r hr; cases i <;> cases hr
  | cons r0 rs ih =>
    intro n i r hr hpr
    cases i with
    | zero =>
      have hre : r0 = r := by simpa using hr
      subst hre
      show m ∈ (match processRow st n r0 with
        | .ok a => (a :: (scanRowsAux st (n + 1) rs).1, (scanRowsAux st (n + 1) rs).2)
        | .err m2 => ((scanRowsAux st (n + 1) rs).1,
            m2 :: (scanRowsAux st (n + 1) rs).2)).2
      rw [Nat.add_zero] at hpr
      rw [hpr]
      exact List.mem_cons_self _ _
    | succ j =>
      have hj : rs.get? j = some r := by simpa using hr
      have hm : m ∈ (scanRowsAux st (n + 1) rs).2 := by
        apply ih (n + 1) j r hj
        rw [show n + 1 + j = n + (j + 1) by omega]
        exact hpr
      show m ∈ (match processRow st n r0 with
        | .ok a => (a :: (scanRowsAux st (n + 1) rs).1, (scanRowsAux st (n + 1) rs).2)
        | .err m2 => ((scanRowsAux st (n + 1) rs).1,
            m2 :: (scanRowsAux st (n + 1) rs).2)).2
      cases processRow st n r0 with
      | ok a => exact hm
      | err m2 => exact List.mem_cons_of_mem _ hm

theorem scanRowsAux_ok_tagFresh (st : StoreState) :
    ∀ (rows : List Row) (n : ℕ) (a : InsertAsset),
      a ∈ (scanRowsAux st n rows).1 → tagFresh st.assets a.tag = true := by
  intro rows
  induction rows with
  | nil => intro n a ha; cases ha
  | cons r0 rs ih =>
    intro n a ha
    revert ha
    show a ∈ (match processRow st n r0 with
      | .ok b => (b :: (scanRowsAux st (n + 1) rs).1, (scanRowsAux st (n + 1) rs).2)
      | .err m => ((scanRowsAux st (n + 1) rs).1,
          m :: (scanRowsAux st (n + 1) rs).2)).1 → _
    cases hpr : processRow st n r0 with
    | ok b =>
      intro ha
      rcases List.mem_cons.mp ha with rfl | ha'
      · exact getAssetByTag_eq_none.mp (processRow_ok_tag_none st n r0 a hpr)
      · exact ih (n + 1) a ha'
    | err m => exact ih (n + 1) a

theorem scanRowsAux_not_both_nil (st : StoreState) :
    ∀ (rows : List Row) (n : ℕ), rows ≠ [] →
      (scanRowsAux st n rows).1 = [] → (scanRowsAux st n rows).2 ≠ [] := by
  intro rows
  cases rows with
  | nil => intro n h; exact absurd rfl h
  | cons r0 rs =>
    intro n _
    show (match processRow st n r0 with
      | .ok b => (b :: (scanRowsAux st (n + 1) rs).1, (scanRowsAux st (n + 1) rs).2)
      | .err m => ((scanRowsAux st (n + 1) rs).1,
          m :: (scanRowsAux st (n + 1) rs).2)).1 = []
      → (match processRow st n r0 with
      | .ok b => (b :: (scanRowsAux st (n + 1) rs).1, (scanRowsAux st (n + 1) rs).2)
      | .err m => ((scanRowsAux st (n + 1) rs).1,
          m :: (scanRowsAux st (n + 1) rs).2)).2 ≠ []
    cases processRow st n r0 with
    | ok b => intro h; cases h
    | err m => intro _; simp

theorem noDupTags_append_assignIds (st : StoreState) (as : List InsertAsset) (n : Int)
    (h : NoDupTags st) (hok : batchTagsOk st.assets as = true) :
    ((st.assets ++ assignIds n as).map (fun a => a.tag)).Pairwise (· ≠ ·) := by
  obtain ⟨hf, hp⟩ := batchTagsOk_elim st.assets as hok
  rw [List.map_append, List.pairwise_append]
  refine ⟨h, ?_, ?_⟩
  · rw [map_tag_assignIds]; exact hp
  · intro x hx y hy
    rw [map_tag_assignIds] at hy
    obtain ⟨b, hb, rfl⟩ := List.mem_map.mp hy
    obtain ⟨c, hc, rfl⟩ := List.mem_map.mp hx
    have hfb := hf b hb
    rw [tagFresh, List.all_eq_true] at hfb
    have h2 := hfb c hc
    simp only [Bool.not_eq_eq_eq_not, Bool.not_true] at h2
    exact beq_eq_false_iff_ne.mp h2

theorem map_tag_patch_none (id : Int) (p : UpdatePatch) (hp : p.tag = none) :
    ∀ (l : List Asset),
      (l.map (fun b => if b.id == id then applyPatch b p else b)).map (fun a => a.tag)
        = l.map (fun a => a.tag) := by
  intro l
  induction l with
  | nil => rfl
  | cons x l ih =>
    simp only [List.map_cons, ih]
    cases hx : x.id == id with
    | true => simp [applyPatch, hp]
    | false => simp

theorem upd_pairwise_tags (id : Int) (p : UpdatePatch) (t : String)
    (hp : p.tag = some t) :
    ∀ (l : List Asset),
      (l.map (fun a => a.tag)).Pairwise (· ≠ ·) →
      (∀ b ∈ l, (b.id == id) = false → b.tag ≠ t) →
      l.countP (fun b => b.id == id) ≤ 1 →
      ((l.map (fun b => if b.id == id then applyPatch b p else b)).map
          (fun a => a.tag)).Pairwise (· ≠ ·) := by
  intro l
  induction l with
  | nil => intro _ _ _; simp
  | cons x l ih =>
    intro hl h1 h2
    rw [List.map_cons, List.pairwise_cons] at hl
    simp only [List.map_cons]
    rw [List.pairwise_cons]
    have htag : ∀ b : Asset, (applyPatch b p).tag = t := fun b => by
      simp [applyPatch, hp]
    constructor
    · intro y hy
      obtain ⟨fc, hfc, rfl⟩ := List.mem_map.mp hy
      obtain ⟨c, hc, rfl⟩ := List.mem_map.mp hfc
      cases hx : x.id == id with
      | true =>
        rw [if_pos rfl, htag x]
        cases hcid : c.id == id with
        | true =>
          exfalso
          have hcp : 0 < l.countP (fun b => b.id == id) :=
            List.countP_pos_iff.mpr ⟨c, hc, hcid⟩
          rw [List.countP_cons, if_pos hx] at h2
          omega
        | false =>
          rw [if_neg (by simp)]
          exact fun he => (h1 c (List.mem_cons_of_mem x hc) hcid) he.symm
      | false =>
        rw [if_neg (by simp)]
        cases hcid : c.id == id with
        | true =>
          rw [if_pos rfl, htag c]
          exact h1 x (List.mem_cons_self x l) hx
        | false =>
          rw [if_neg (by simp)]
          exact hl.1 c.tag (List.mem_map.mpr ⟨c, hc, rfl⟩)
    · refine ih hl.2 (fun b hb hbid => h1 b (List.mem_cons_of_mem x hb) hbid) ?_
      rw [List.countP_cons] at h2
      omega

theorem updateAsset_preserves (st : StoreState) (id : Int) (p : UpdatePatch)
    (h : NoDupTags st) (res : Option Asset) (st' : StoreState)
    (hup : updateAsset st id p = .ok (res, st')) : NoDupTags st' := by
  unfold updateAsset at hup
  by_cases hpv : (!patchHasValues p) = true
  case pos =>
    rw [if_pos hpv] at hup
    cases hup
  case neg =>
  rw [if_neg hpv] at hup
  cases hfind : st.assets.find? (fun b => b.id == id) with
  | none =>
    rw [hfind] at hup
    cases hup
    exact h
  | some x =>
    rw [hfind] at hup
    cases hc : updConflict st id p with
    | true => rw [hc] at hup; cases hup
    | false =>
      rw [hc] at hup
      simp only [if_false, Bool.false_eq_true] at hup
      cases hup
      show ((st.assets.map (fun b => if b.id == id then applyPatch b p else b)).map
          (fun a => a.tag)).Pairwise (· ≠ ·)
      cases hptag : p.tag with
      | none => rw [map_tag_patch_none id p hptag]; exact h
      | some t =>
        unfold updConflict at hc
        rw [hptag] at hc
        rw [Bool.or_eq_false_iff] at hc
        obtain ⟨hany, hcnt⟩ := hc
        refine upd_pairwise_tags id p t hptag st.assets h ?_ ?_
        · intro b hb hbid
          rw [List.any_eq_false] at hany
          have hb2 := hany b hb
          rw [hbid] at hb2
          simp only [Bool.not_false, Bool.true_and, Bool.not_eq_true] at hb2
          exact beq_eq_false_iff_ne.mp hb2
        · have := of_decide_eq_false hcnt
          omega

/-! ### Claim theorems -/

/-- C1 counterexample: the validation schema accepts an input whose `name` is
the empty string and whose `cost` is not parseable as a decimal at all, so
the claim that it accepts an input only when `name`, `type` and `tag` are
non-empty and `cost` parses as a non-negative decimal is false. -/
theorem C1_counterexample :
    insertAssetSchemaParse
        ⟨some (.str ""), some (.str "x"), some (.str "y"), some (.str "abc"), none, none⟩
      = .ok ⟨"", "x", "y", "abc", none, none⟩
    ∧ jsParseFloat "abc" = .nan := ⟨rfl, rfl⟩

/-- C1 (amended): the server-side `insertAssetSchema` accepts an inbound
input exactly when `name`, `type`, `tag` and `cost` are present strings
(possibly empty, with no numeric check on `cost`) and `serialNumber` and
`acquisitionDate` are each absent, null or a string; a rejected input gets a
field-level error for exactly the offending fields.  Only the client-side
form schema adds a content check: it additionally requires
`parseFloat(cost)` to be a non-NaN value that is `≥ 0`, with a field-level
error on `cost`. -/
theorem C1_schema_shape (b : RawBody) :
    ((∃ a, insertAssetSchemaParse b = .ok a) ↔
      (isStringVal b.name && isStringVal b.type && isStringVal b.tag
        && isStringVal b.cost && isNullableOptString b.serialNumber
        && isNullableOptString b.acquisitionDate) = true)
    ∧ (∀ es, insertAssetSchemaParse b = .error es →
        (("name" ∈ es ↔ isStringVal b.name = false)
          ∧ ("type" ∈ es ↔ isStringVal b.type = false)
          ∧ ("tag" ∈ es ↔ isStringVal b.tag = false)
          ∧ ("cost" ∈ es ↔ isStringVal b.cost = false)
          ∧ ("serialNumber" ∈ es ↔ isNullableOptString b.serialNumber = false)
          ∧ ("acquisitionDate" ∈ es ↔ isNullableOptString b.acquisitionDate = false)))
    ∧ ((∃ a, formSchemaParse b = .ok a) ↔
      (isStringVal b.name && isStringVal b.type && isStringVal b.tag
        && (isStringVal b.cost && costRefineOk (getStr b.cost))
        && isNullableOptString b.serialNumber && isOptString b.acquisitionDate) = true)
    ∧ (∀ es, formSchemaParse b = .error es →
        ("cost" ∈ es ↔ (isStringVal b.cost && costRefineOk (getStr b.cost)) = false)) := by
  have hinsOk : (∃ a, insertAssetSchemaParse b = .ok a) ↔ insertErrs b = [] := by
    unfold insertAssetSchemaParse
    by_cases h : insertErrs b = [] <;> simp [h]
  have hformOk : (∃ a, formSchemaParse b = .ok a) ↔ formErrs b = [] := by
    unfold formSchemaParse
    by_cases h : formErrs b = [] <;> simp [h]
  have hinsErr : ∀ es, insertAssetSchemaParse b = .error es → es = insertErrs b := by
    intro es hes
    unfold insertAssetSchemaParse at hes
    by_cases h : insertErrs b = [] <;> simp [h] at hes
    exact hes.symm
  have hformErr : ∀ es, formSchemaParse b = .error es → es = formErrs b := by
    intro es hes
    unfold formSchemaParse at hes
    by_cases h : formErrs b = [] <;> simp [h] at hes
    exact hes.symm
  refine ⟨?_, ?_, ?_, ?_⟩
  · rw [hinsOk]
    unfold insertErrs
    cases h1 : isStringVal b.name <;> cases h2 : isStringVal b.type <;>
      cases h3 : isStringVal b.tag <;>
      cases h4 : isNullableOptString b.serialNumber <;>
      cases h5 : isStringVal b.cost <;>
      cases h6 : isNullableOptString b.acquisitionDate <;> simp
  · intro es hes
    obtain rfl := hinsErr es hes
    unfold insertErrs
    cases h1 : isStringVal b.name <;> cases h2 : isStringVal b.type <;>
      cases h3 : isStringVal b.tag <;>
      cases h4 : isNullableOptString b.serialNumber <;>
      cases h5 : isStringVal b.cost <;>
      cases h6 : isNullableOptString b.acquisitionDate <;> simp
  · rw [hformOk]
    unfold formErrs
    cases h1 : isStringVal b.name <;> cases h2 : isStringVal b.type <;>
      cases h3 : isStringVal b.tag <;>
      cases h4 : isNullableOptString b.serialNumber <;>
      cases h5 : isStringVal b.cost && costRefineOk (getStr b.cost) <;>
      cases h6 : isOptString b.acquisitionDate <;> simp
  · intro es hes
    obtain rfl := hformErr es hes
    unfold formErrs
    cases h1 : isStringVal b.name <;> cases h2 : isStringVal b.type <;>
      cases h3 : isStringVal b.tag <;>
      cases h4 : isNullableOptString b.serialNumber <;>
      cases h5 : isStringVal b.cost && costRefineOk (getStr b.cost) <;>
      cases h6 : isOptString b.acquisitionDate <;> simp

/-- C1 witness: a fully-valid body is accepted by the schema, and a body
whose required fields are all absent is rejected with a `cost` field error
(but no `serialNumber` error, since that field is optional). -/
theorem C1_witness :
    (∃ a, insertAssetSchemaParse
        ⟨some (.str "Dell"), some (.str "laptop"), some (.str "LP-1"),
          some (.str "1200.00"), none, none⟩ = .ok a)
    ∧ ("cost" ∈ ["name", "type", "tag", "cost"]
        ∧ ¬ "serialNumber" ∈ ["name", "type", "tag", "cost"]) := by
  constructor
  · exact (C1_schema_shape
      ⟨some (.str "Dell"), some (.str "laptop"), some (.str "LP-1"),
        some (.str "1200.00"), none, none⟩).1.mpr rfl
  · have h := ((C1_schema_shape ⟨none, none, none, none, none, none⟩).2.1
      ["name", "type", "tag", "cost"] rfl)
    exact ⟨h.2.2.2.1.mpr rfl, fun hm => by cases (h.2.2.2.2.1.mp hm)⟩

/-- C4 counterexample: the import's alias tables do not follow the spec's
canonical/PascalCase/snake_case/lowercase scheme.  A row whose only cost
column is "price" (a synonym, not a case variant of "Cost") is imported
with that value although the spec's scheme contains no such alias, and a
row carrying the scheme's PascalCase-no-space name variant "AssetName" is
rejected as missing its name because the code instead tries the bare
"Name". -/
theorem C4_counterexample :
    processRow ⟨[], 1⟩ 0
        [("price", .num 7), ("Asset Name", .str "A"), ("Asset Type", .str "T"),
          ("Asset Tag", .str "G")]
      = .ok ⟨"A", "T", "G", "7", none, none⟩
    ∧ ¬ "price" ∈ specCostAliases
    ∧ processRow ⟨[], 1⟩ 0
        [("AssetName", .str "x"), ("Asset Type", .str "T"), ("Asset Tag", .str "Z"),
          ("Cost", .str "1")]
      = .err (missingMsg 0)
    ∧ "AssetName" ∈ specNameAliases
    ∧ ¬ "AssetName" ∈ nameAliases := by
  exact ⟨rfl, by decide, rfl, by decide, by decide⟩

/-- C4 (amended): for every imported row and field, the header aliases are
tried in a fixed per-field priority order — name: "Asset Name", "Name",
"asset_name", "name"; type: "Asset Type", "Type", "asset_type", "type";
tag: "Asset Tag", "Tag", "asset_tag", "tag"; cost: "Cost", "cost", "Price",
"price"; serialNumber: "Serial Number", "SerialNumber", "serial_number",
"serial"; acquisitionDate: "Acquisition Date", "AcquisitionDate",
"acquisition_date", "date" — and among alias columns holding truthy values
the highest-priority one wins. -/
theorem C4_alias_priority (r : Row) (ks : List String) (k : String)
    (hfind : ks.find? (fun k2 => jsTruthy (rowGet r k2)) = some k) :
    orChain r ks = rowGet r k
    ∧ nameAliases = ["Asset Name", "Name", "asset_name", "name"]
    ∧ typeAliases = ["Asset Type", "Type", "asset_type", "type"]
    ∧ tagAliases = ["Asset Tag", "Tag", "asset_tag", "tag"]
    ∧ costAliases = ["Cost", "cost", "Price", "price"]
    ∧ serialAliases = ["Serial Number", "SerialNumber", "serial_number", "serial"]
    ∧ dateAliases = ["Acquisition Date", "AcquisitionDate", "acquisition_date", "date"] :=
  ⟨(orChain_eq_of_find? r ks k hfind).1, rfl, rfl, rfl, rfl, rfl, rfl⟩

/-- C4 witness: on a row carrying both the "Name" and "name" alias columns,
the higher-priority "Name" column wins. -/
theorem C4_witness :
    orChain [("Name", JsVal.str "n1"), ("name", JsVal.str "n2")] nameAliases
      = rowGet [("Name", JsVal.str "n1"), ("name", JsVal.str "n2")] "Name"
    ∧ rowGet [("Name", JsVal.str "n1"), ("name", JsVal.str "n2")] "Name"
      = some (JsVal.str "n1") :=
  ⟨(C4_alias_priority [("Name", JsVal.str "n1"), ("name", JsVal.str "n2")]
      nameAliases "Name" rfl).1, rfl⟩

/-- C10 counterexample: a row whose cost cell holds the number 0 — in the
"price" column, the last alias the `||` chain tries — is not rejected: the
chain returns the final falsy value rather than `undefined`, the
`cost === undefined` guard passes, and the row imports with cost "0".  So
the claim that every such row is rejected with a missing-fields error is
false. -/
theorem C10_counterexample :
    processRow ⟨[], 1⟩ 0
        [("Asset Name", .str "A"), ("Asset Type", .str "T"), ("Asset Tag", .str "G"),
          ("price", .num 0)]
      = .ok ⟨"A", "T", "G", "0", none, none⟩ := rfl

/-- C10 (amended): a required cell whose coerced value is falsy is treated
as absent with the following precision — a row whose name, type or tag
`||` chain is falsy, or whose cost chain is `undefined`, is rejected with
the missing-required-fields row error; the cost chain is `undefined`
exactly when the "Cost", "cost" and "Price" cells are all absent or falsy
and the "price" cell is absent.  Hence a 0 in "Cost", "cost" or "Price"
with no "price" column is treated as absent, but any present "price" cell
— even the number 0 — makes cost defined, and the row imports with cost
"0". -/
theorem C10_falsy_required (st : StoreState) (i : ℕ) (r : Row) :
    ((jsTruthy (orChain r nameAliases) = false ∨ jsTruthy (orChain r typeAliases) = false
        ∨ jsTruthy (orChain r tagAliases) = false ∨ orChain r costAliases = none)
      → processRow st i r = .err (missingMsg i))
    ∧ (orChain r costAliases = none ↔
        jsTruthy (rowGet r "Cost") = false ∧ jsTruthy (rowGet r "cost") = false
          ∧ jsTruthy (rowGet r "Price") = false ∧ rowGet r "price" = none)
    ∧ (∀ v, rowGet r "price" = some v → ¬ orChain r costAliases = none) := by
  refine ⟨?_, orChain_cost_none r, ?_⟩
  · intro h
    apply processRow_err_of_missing
    rcases h with h | h | h | h
    · simp [h]
    · simp [h]
    · simp [h]
    · simp [h]
  · intro v hv hnone
    have := (orChain_cost_none r).mp hnone
    rw [this.2.2.2] at hv
    cases hv

/-- C10 witness: a row whose only cost cell is the number 0 in the "Cost"
column is rejected with the missing-required-fields error for row 2. -/
theorem C10_witness :
    processRow ⟨[], 1⟩ 0
        [("Asset Name", .str "A"), ("Asset Type", .str "T"), ("Asset Tag", .str "G"),
          ("Cost", .num 0)]
      = .err (missingMsg 0) :=
  (C10_falsy_required ⟨[], 1⟩ 0
      [("Asset Name", .str "A"), ("Asset Type", .str "T"), ("Asset Tag", .str "G"),
        ("Cost", .num 0)]).1
    (Or.inr (Or.inr (Or.inr rfl)))

/-- C6 (confirmed): for every store state and schema-valid input, when the
input's tag already belongs to an existing asset the create route answers
409 Conflict and leaves the store — in particular the existing asset —
unchanged; when the tag is fresh it inserts and answers 201 Created with
the new asset carrying the system-assigned serial id. -/
theorem C6_create_conflict_or_insert (st : StoreState) (b : RawBody) (a : InsertAsset)
    (hparse : insertAssetSchemaParse b = .ok a) :
    ((getAssetByTag st a.tag).isSome = true → createRoute st b = (.conflict, st))
    ∧ (getAssetByTag st a.tag = none →
        createRoute st b =
          (.created (mkAsset st.nextId a),
            ⟨st.assets ++ [mkAsset st.nextId a], st.nextId + 1⟩)) := by
  constructor
  · intro hsome
    simp [createRoute, hparse, hsome]
  · intro hnone
    have hfresh := getAssetByTag_eq_none.mp hnone
    simp [createRoute, hparse, hnone, createAsset, hfresh]

/-- C6 witness: creating a fresh-tagged asset in the empty store succeeds
with id 1, and creating the same tag again conflicts and leaves the
one-asset store unchanged. -/
theorem C6_witness :
    createRoute ⟨[], 1⟩
        ⟨some (.str "Dell"), some (.str "laptop"), some (.str "LP-1"),
          some (.str "1200.00"), none, none⟩
      = (.created (mkAsset 1 ⟨"Dell", "laptop", "LP-1", "1200.00", none, none⟩),
          ⟨[] ++ [mkAsset 1 ⟨"Dell", "laptop", "LP-1", "1200.00", none, none⟩], 1 + 1⟩)
    ∧ createRoute ⟨[mkAsset 1 ⟨"Dell", "laptop", "LP-1", "1200.00", none, none⟩], 2⟩
        ⟨some (.str "Other"), some (.str "monitor"), some (.str "LP-1"),
          some (.str "5"), none, none⟩
      = (.conflict, ⟨[mkAsset 1 ⟨"Dell", "laptop", "LP-1", "1200.00", none, none⟩], 2⟩) :=
  ⟨(C6_create_conflict_or_insert ⟨[], 1⟩
      ⟨some (.str "Dell"), some (.str "laptop"), some (.str "LP-1"),
        some (.str "1200.00"), none, none⟩
      ⟨"Dell", "laptop", "LP-1", "1200.00", none, none⟩ rfl).2 rfl,
    (C6_create_conflict_or_insert
        ⟨[mkAsset 1 ⟨"Dell", "laptop", "LP-1", "1200.00", none, none⟩], 2⟩
        ⟨some (.str "Other"), some (.str "monitor"), some (.str "LP-1"),
          some (.str "5"), none, none⟩
        ⟨"Other", "monitor", "LP-1", "5", none, none⟩ rfl).1 rfl⟩

/-- C9 (confirmed): updating an existing asset with a patch containing only
`cost` changes exactly the cost — name, type, tag, serialNumber,
acquisitionDate and id retain their prior values — and in general a
successful update returns the stored asset with exactly the present patch
keys overwritten (the spread merge). -/
theorem C9_cost_only_update (st : StoreState) (a : Asset) (c : String)
    (hfind : st.assets.find? (fun x => x.id == a.id) = some a) :
    updateRoute st a.id ⟨none, none, none, some (.str c), none, none⟩
      = (.updated { a with cost := c },
          ⟨st.assets.map (fun x => if x.id == a.id then { x with cost := c } else x),
            st.nextId⟩)
    ∧ ({ a with cost := c }).name = a.name ∧ ({ a with cost := c }).type = a.type
    ∧ ({ a with cost := c }).tag = a.tag
    ∧ ({ a with cost := c }).serialNumber = a.serialNumber
    ∧ ({ a with cost := c }).acquisitionDate = a.acquisitionDate
    ∧ ({ a with cost := c }).id = a.id
    ∧ (∀ (b : RawBody) (p : UpdatePatch) (st2 : StoreState) (a' : Asset)
        (st' : StoreState),
        insertAssetSchemaPartialParse b = .ok p →
        updateRoute st2 a.id b = (.updated a', st') →
        ∃ base, st2.assets.find? (fun x => x.id == a.id) = some base
          ∧ a' = applyPatch base p) := by
  refine ⟨?_, rfl, rfl, rfl, rfl, rfl, rfl, ?_⟩
  · have hparse : insertAssetSchemaPartialParse ⟨none, none, none, some (.str c), none, none⟩
        = .ok ⟨none, none, none, some c, none, none⟩ := rfl
    have hrc : routeTagConflict st a.id ⟨none, none, none, some c, none, none⟩ = false := rfl
    have huc : updConflict st a.id ⟨none, none, none, some c, none, none⟩ = false := rfl
    simp only [updateRoute, hparse, hrc, Bool.false_eq_true, if_false]
    unfold updateAsset
    rw [hfind, huc]
    simp only [Bool.false_eq_true, if_false, find?_map_applyPatch, hfind, Option.map_some']
    rfl
  · intro b p st2 a' st' hp hup
    unfold updateRoute at hup
    rw [hp] at hup
    dsimp only at hup
    by_cases hc : routeTagConflict st2 a.id p = true
    · rw [if_pos hc] at hup; simp at hup
    · rw [if_neg hc] at hup
      unfold updateAsset at hup
      by_cases hpv : (!patchHasValues p) = true
      · rw [if_pos hpv] at hup
        simp at hup
      · rw [if_neg hpv] at hup
        cases hfind2 : st2.assets.find? (fun x => x.id == a.id) with
        | none => rw [hfind2] at hup; simp at hup
        | some base =>
          rw [hfind2] at hup
          by_cases hcc : updConflict st2 a.id p = true
          · rw [if_pos hcc] at hup; simp at hup
          · rw [if_neg hcc] at hup
            dsimp only at hup
            rw [find?_map_applyPatch, hfind2] at hup
            simp only [Option.map_some'] at hup
            simp only [UpdateResponse.updated.injEq, Prod.mk.injEq] at hup
            exact ⟨base, rfl, hup.1.symm⟩

/-- C9 witness: a cost-only update of a concrete stored asset rewrites the
cost to "150.00" and keeps every other field. -/
theorem C9_witness :
    updateRoute
        ⟨[⟨5, "Dell", "laptop", "LP-1", some "SN1", "1200.00", some "2024-01-01"⟩], 6⟩ 5
        ⟨none, none, none, some (.str "150.00"), none, none⟩
      = (.updated ⟨5, "Dell", "laptop", "LP-1", some "SN1", "150.00", some "2024-01-01"⟩,
          ⟨[⟨5, "Dell", "laptop", "LP-1", some "SN1", "150.00", some "2024-01-01"⟩], 6⟩) :=
  (C9_cost_only_update
      ⟨[⟨5, "Dell", "laptop", "LP-1", some "SN1", "1200.00", some "2024-01-01"⟩], 6⟩
      ⟨5, "Dell", "laptop", "LP-1", some "SN1", "1200.00", some "2024-01-01"⟩
      "150.00" rfl).1

/-- C5 (confirmed): an imported row with no value for one of name, type, tag
or cost is rejected with the row-indexed missing-required-fields message
whose row number is the row's 0-based data index plus 2, the row
contributes nothing to the batch, and the scan of the other rows is
unaffected: the batch and error list are exactly the rowwise outcomes of
every row (no early abort). -/
theorem C5_missing_field_row (st : StoreState) (rows : List Row) (i : ℕ) (r : Row)
    (hr : rows.get? i = some r)
    (hmiss : orChain r nameAliases = none ∨ orChain r typeAliases = none
      ∨ orChain r tagAliases = none ∨ orChain r costAliases = none) :
    processRow st i r = .err (missingMsg i)
    ∧ missingMsg i ∈ (scanRows st rows).2
    ∧ (scanRows st rows).1 = rows.enum.filterMap (fun q =>
        match processRow st q.1 q.2 with
        | .ok a => some a
        | .err _ => none)
    ∧ (scanRows st rows).2 = rows.enum.filterMap (fun q =>
        match processRow st q.1 q.2 with
        | .err m => some m
        | .ok _ => none) := by
  have hpr : processRow st i r = .err (missingMsg i) := by
    apply processRow_err_of_missing
    rcases hmiss with h | h | h | h <;> simp [h, jsTruthy]
  refine ⟨hpr, ?_, ?_, ?_⟩
  · have := scanRowsAux_err_mem st (missingMsg i) rows 0 i r hr
    rw [Nat.zero_add] at this
    exact this hpr
  · rw [scanRows, scanRowsAux_eq]; rfl
  · rw [scanRows, scanRowsAux_eq]; rfl

/-- C5 witness: in a two-row workbook whose first row lacks any cost column,
row 1 (reported as spreadsheet row 2) is rejected and excluded while the
second row still imports. -/
theorem C5_witness :
    processRow ⟨[], 1⟩ 0 [("Asset Name", .str "A"), ("Asset Type", .str "T"),
        ("Asset Tag", .str "G")]
      = .err (missingMsg 0)
    ∧ missingMsg 0 ∈ (scanRows ⟨[], 1⟩
        [[("Asset Name", .str "A"), ("Asset Type", .str "T"), ("Asset Tag", .str "G")],
          [("Asset Name", .str "B"), ("Asset Type", .str "T"), ("Asset Tag", .str "H"),
            ("Cost", .str "3")]]).2
    ∧ (scanRows ⟨[], 1⟩
        [[("Asset Name", .str "A"), ("Asset Type", .str "T"), ("Asset Tag", .str "G")],
          [("Asset Name", .str "B"), ("Asset Type", .str "T"), ("Asset Tag", .str "H"),
            ("Cost", .str "3")]]).1
      = [⟨"B", "T", "H", "3", none, none⟩] := by
  have h := C5_missing_field_row ⟨[], 1⟩
    [[("Asset Name", .str "A"), ("Asset Type", .str "T"), ("Asset Tag", .str "G")],
      [("Asset Name", .str "B"), ("Asset Type", .str "T"), ("Asset Tag", .str "H"),
        ("Cost", .str "3")]]
    0 [("Asset Name", .str "A"), ("Asset Type", .str "T"), ("Asset Tag", .str "G")]
    rfl (Or.inr (Or.inr (Or.inr rfl)))
  exact ⟨h.1, h.2.1, by rw [h.2.2.1]; rfl⟩

/-- C3 counterexample: in a workbook whose two rows both carry the fresh tag
"X", both rows pass row-level validation (the scan yields two assets and no
errors), yet nothing is imported: the single batch INSERT violates the tag
UNIQUE constraint, the route's catch answers 500, and the response is not
the claimed success report with the imported count and records. -/
theorem C3_counterexample :
    scanRows ⟨[], 1⟩
        [[("Asset Name", .str "A"), ("Asset Type", .str "T"), ("Asset Tag", .str "X"),
            ("Cost", .str "1")],
          [("Asset Name", .str "B"), ("Asset Type", .str "T"), ("Asset Tag", .str "X"),
            ("Cost", .str "2")]]
      = ([⟨"A", "T", "X", "1", none, none⟩, ⟨"B", "T", "X", "2", none, none⟩], [])
    ∧ importRoute ⟨[], 1⟩
        [[("Asset Name", .str "A"), ("Asset Type", .str "T"), ("Asset Tag", .str "X"),
            ("Cost", .str "1")],
          [("Asset Name", .str "B"), ("Asset Type", .str "T"), ("Asset Tag", .str "X"),
            ("Cost", .str "2")]]
      = (.serverError, ⟨[], 1⟩) := ⟨rfl, rfl⟩

/-- C3 (amended): for every imported workbook, if no row passes validation
the whole import fails with the accumulated row errors and nothing is
inserted; if some rows pass and their tags are pairwise distinct, all
passing rows are inserted as one batch and the response reports the count of
rows imported, the created records and the non-fatal errors for skipped rows (if
any); but if the passing rows themselves contain a duplicated tag, the
batch INSERT fails as a whole on the tag UNIQUE constraint, the route
answers 500, and nothing is inserted. -/
theorem C3_import_outcome (st : StoreState) (rows : List Row) (hrows : rows ≠ []) :
    ((scanRows st rows).1 = [] →
      (scanRows st rows).2 ≠ []
        ∧ importRoute st rows = (.noValid (scanRows st rows).2, st))
    ∧ ((scanRows st rows).1 ≠ [] →
        (((scanRows st rows).1.map (fun a => a.tag)).Pairwise (· ≠ ·) →
          importRoute st rows =
            (.success (scanRows st rows).1.length
              (if (scanRows st rows).2.isEmpty then none else some (scanRows st rows).2)
              (assignIds st.nextId (scanRows st rows).1),
              ⟨st.assets ++ assignIds st.nextId (scanRows st rows).1,
                st.nextId + ((scanRows st rows).1.length : Int)⟩))
        ∧ (¬ ((scanRows st rows).1.map (fun a => a.tag)).Pairwise (· ≠ ·) →
            importRoute st rows = (.serverError, st))) := by
  have hne : rows.isEmpty = false := by
    cases rows with
    | nil => exact absurd rfl hrows
    | cons r rs => rfl
  have hfresh : ∀ a ∈ (scanRows st rows).1, tagFresh st.assets a.tag = true :=
    fun a ha => scanRowsAux_ok_tagFresh st rows 0 a ha
  constructor
  · intro h1
    have h2 := scanRowsAux_not_both_nil st rows 0 hrows h1
    refine ⟨h2, ?_⟩
    unfold importRoute
    rw [hne]
    simp only [Bool.false_eq_true, if_false]
    rw [show ((!(scanRows st rows).2.isEmpty && (scanRows st rows).1.isEmpty) = true) from ?_]
    · rfl
    · rw [Bool.and_eq_true]
      constructor
      · cases he : (scanRows st rows).2 with
        | nil => exact absurd he h2
        | cons m ms => rfl
      · rw [h1]; rfl
  · intro h1
    have hpe : (scanRows st rows).1.isEmpty = false := by
      cases he : (scanRows st rows).1 with
      | nil => exact absurd he h1
      | cons a l => rfl
    constructor
    · intro hp
      have hok : batchTagsOk st.assets (scanRows st rows).1 = true :=
        batchTagsOk_intro st.assets (scanRows st rows).1 hfresh hp
      unfold importRoute
      rw [hne]
      simp only [Bool.false_eq_true, if_false, hpe, Bool.and_false, if_false]
      unfold createManyAssets
      rw [hpe, hok]
      simp only [Bool.false_eq_true, if_false, if_true]
      rw [length_assignIds]
    · intro hp
      have hok : batchTagsOk st.assets (scanRows st rows).1 = false := by
        cases hb : batchTagsOk st.assets (scanRows st rows).1 with
        | false => rfl
        | true => exact absurd (batchTagsOk_elim st.assets (scanRows st rows).1 hb).2 hp
      unfold importRoute
      rw [hne]
      simp only [Bool.false_eq_true, if_false, hpe, Bool.and_false, if_false]
      unfold createManyAssets
      rw [hpe, hok]
      simp

/-- C3 witness: a concrete two-row workbook with distinct fresh tags imports
as one batch of two records with no errors, extending the store. -/
theorem C3_witness :
    importRoute ⟨[], 1⟩
        [[("Asset Name", .str "A"), ("Asset Type", .str "T"), ("Asset Tag", .str "X"),
            ("Cost", .str "1")],
          [("Asset Name", .str "B"), ("Asset Type", .str "T"), ("Asset Tag", .str "Y"),
            ("Cost", .str "2")]]
      = (.success 2 none
          [⟨1, "A", "T", "X", none, "1", none⟩, ⟨2, "B", "T", "Y", none, "2", none⟩],
          ⟨[⟨1, "A", "T", "X", none, "1", none⟩, ⟨2, "B", "T", "Y", none, "2", none⟩], 3⟩) := by
  exact ((C3_import_outcome ⟨[], 1⟩
      [[("Asset Name", .str "A"), ("Asset Type", .str "T"), ("Asset Tag", .str "X"),
          ("Cost", .str "1")],
        [("Asset Name", .str "B"), ("Asset Type", .str "T"), ("Asset Tag", .str "Y"),
          ("Cost", .str "2")]]
      (by decide)).2 (by decide)).1 (by decide)

theorem createAsset_preserves (st : StoreState) (a : InsertAsset) (x : Asset)
    (st' : StoreState) (h : NoDupTags st) (hc : createAsset st a = .ok (x, st')) :
    NoDupTags st' := by
  unfold createAsset at hc
  by_cases hf : tagFresh st.assets a.tag = true
  · rw [if_pos hf] at hc
    cases hc
    show (List.map (fun b => b.tag) (st.assets ++ [mkAsset st.nextId a])).Pairwise (· ≠ ·)
    rw [List.map_append, List.pairwise_append]
    refine ⟨h, List.pairwise_singleton _ _, ?_⟩
    intro u hu v hv
    obtain ⟨c, hc2, rfl⟩ := List.mem_map.mp hu
    rw [List.map_singleton, List.mem_singleton] at hv
    subst hv
    rw [tagFresh, List.all_eq_true] at hf
    have h3 := hf c hc2
    simp only [Bool.not_eq_eq_eq_not, Bool.not_true] at h3
    exact beq_eq_false_iff_ne.mp h3
  · rw [if_neg hf] at hc
    cases hc

theorem createManyAssets_preserves (st : StoreState) (as : List InsertAsset)
    (created : List Asset) (st' : StoreState) (h : NoDupTags st)
    (hc : createManyAssets st as = .ok (created, st')) : NoDupTags st' := by
  unfold createManyAssets at hc
  by_cases he : as.isEmpty = true
  · rw [if_pos he] at hc
    cases hc
    exact h
  · rw [if_neg he] at hc
    by_cases hok : batchTagsOk st.assets as = true
    · rw [if_pos hok] at hc
      cases hc
      exact noDupTags_append_assignIds st as st.nextId h hok
    · rw [if_neg hok] at hc
      cases hc

/-- C2 (confirmed): tag uniqueness is an invariant of the store.  From any
state with pairwise-distinct tags, the create route, the update route and
the import route (including its batch insert) each leave a state with
pairwise-distinct tags.  When two rows of one imported file carry the same
fresh tag the batch INSERT is rejected as a whole by the tag UNIQUE
constraint, so even then the state keeps the invariant (the import answers
500 with no rows inserted). -/
theorem C2_tag_uniqueness (st : StoreState) (h : NoDupTags st) :
    (∀ b, NoDupTags (createRoute st b).2)
    ∧ (∀ id b, NoDupTags (updateRoute st id b).2)
    ∧ (∀ rows, NoDupTags (importRoute st rows).2) := by
  refine ⟨?_, ?_, ?_⟩
  · intro b
    unfold createRoute
    cases hp : insertAssetSchemaParse b with
    | error es => exact h
    | ok data =>
      dsimp only
      cases hs : (getAssetByTag st data.tag).isSome with
      | true => exact h
      | false =>
        cases hcr : createAsset st data with
        | error e => exact h
        | ok pair =>
          obtain ⟨a2, st2⟩ := pair
          exact createAsset_preserves st data a2 st2 h hcr
  · intro id b
    unfold updateRoute
    cases hp : insertAssetSchemaPartialParse b with
    | error es => exact h
    | ok p =>
      dsimp only
      cases hcf : routeTagConflict st id p with
      | true => exact h
      | false =>
        cases hu : updateAsset st id p with
        | error e => exact h
        | ok pair =>
          obtain ⟨res, st2⟩ := pair
          cases res with
          | none => exact h
          | some a2 => exact updateAsset_preserves st id p h (some a2) st2 hu
  · intro rows
    unfold importRoute
    dsimp only
    cases hne : rows.isEmpty with
    | true => exact h
    | false =>
      cases hcond : (!(scanRows st rows).2.isEmpty && (scanRows st rows).1.isEmpty) with
      | true => exact h
      | false =>
        cases hcm : createManyAssets st (scanRows st rows).1 with
        | error e => exact h
        | ok pair =>
          obtain ⟨created, st2⟩ := pair
          exact createManyAssets_preserves st (scanRows st rows).1 created st2 h hcm

/-- C2 witness: starting from the empty store (trivially duplicate-free),
an import of a workbook whose two rows share the fresh tag "X" still leaves a
duplicate-free store. -/
theorem C2_witness :
    NoDupTags ((importRoute ⟨[], 1⟩
      [[("Asset Name", .str "A"), ("Asset Type", .str "T"), ("Asset Tag", .str "X"),
          ("Cost", .str "1")],
        [("Asset Name", .str "B"), ("Asset Type", .str "T"), ("Asset Tag", .str "X"),
          ("Cost", .str "2")]]).2) :=
  (C2_tag_uniqueness ⟨[], 1⟩ List.Pairwise.nil).2.2
    [[("Asset Name", .str "A"), ("Asset Type", .str "T"), ("Asset Tag", .str "X"),
        ("Cost", .str "1")],
      [("Asset Name", .str "B"), ("Asset Type", .str "T"), ("Asset Tag", .str "X"),
        ("Cost", .str "2")]]

/-- C7 counterexample: with one asset (id 1, tag "TAG") in the store,
updating the nonexistent id 2 with tag "TAG" answers 409 Conflict, not the
404 Not Found the claim requires for every id held by no asset — the route
runs the tag-conflict check before the existence check. -/
theorem C7_counterexample :
    updateRoute ⟨[⟨1, "A", "t", "TAG", none, "1", none⟩], 2⟩ 2
        ⟨none, none, some (.str "TAG"), none, none, none⟩
      = (.conflict, ⟨[⟨1, "A", "t", "TAG", none, "1", none⟩], 2⟩)
    ∧ getAsset ⟨[⟨1, "A", "t", "TAG", none, "1", none⟩], 2⟩ 2 = none := ⟨rfl, rfl⟩

/-- C7 (amended): in a well-formed store (unique ids and unique tags, as the
schema's primary key and UNIQUE constraint guarantee), the update route
behaves as follows.  (1) A patch carrying a truthy (non-empty) tag owned by
an asset with a different id fails with 409 Conflict and leaves the store
unchanged — this check precedes the existence check, so it fires even when
no asset has the target id.  (2) Otherwise, when the patch has at least one
present field and no asset has the id, the route fails with 404 Not Found
and the store is unchanged.  (3) A patch with no present fields answers 500
for every id — drizzle's `set({})` throws "No values to set" — with the
store unchanged.  (4) An update with at least one present field that keeps
(omits) or resubmits the asset's own tag succeeds and merges the patch. -/
theorem C7_update_semantics (st : StoreState) (hid : UniqueIds st)
    (htags : NoDupTags st) :
    (∀ (id : Int) (b : RawBody) (p : UpdatePatch) (t : String) (x : Asset),
      insertAssetSchemaPartialParse b = .ok p → p.tag = some t → t ≠ "" →
      getAssetByTag st t = some x → x.id ≠ id →
      updateRoute st id b = (.conflict, st))
    ∧ (∀ (id : Int) (b : RawBody) (p : UpdatePatch),
        insertAssetSchemaPartialParse b = .ok p → patchHasValues p = true →
        routeTagConflict st id p = false → getAsset st id = none →
        updateRoute st id b = (.notFound, st))
    ∧ (∀ (id : Int) (b : RawBody) (p : UpdatePatch),
        insertAssetSchemaPartialParse b = .ok p → patchHasValues p = false →
        updateRoute st id b = (.serverError, st))
    ∧ (∀ (a : Asset) (b : RawBody) (p : UpdatePatch), a ∈ st.assets →
        insertAssetSchemaPartialParse b = .ok p → patchHasValues p = true →
        (p.tag = some a.tag ∨ p.tag = none) →
        updateRoute st a.id b
          = (.updated (applyPatch a p),
              ⟨st.assets.map (fun x => if x.id == a.id then applyPatch x p else x),
                st.nextId⟩)) := by
  refine ⟨?_, ?_, ?_, ?_⟩
  · intro id b p t x hp hptag ht hx hxid
    have hrc : routeTagConflict st id p = true := by
      unfold routeTagConflict
      rw [hptag]
      dsimp only
      rw [hx]
      simp [ht, hxid]
    unfold updateRoute
    rw [hp]
    dsimp only
    rw [if_pos hrc]
  · intro id b p hp hpv hrc hnone
    unfold updateRoute
    rw [hp]
    dsimp only
    rw [if_neg (by simp [hrc])]
    unfold updateAsset
    rw [if_neg (show ¬(!patchHasValues p) = true by simp [hpv])]
    rw [show st.assets.find? (fun x => x.id == id) = none from hnone]
  · intro id b p hp hpv
    have htag0 : p.tag = none := by
      cases hpt : p.tag with
      | none => rfl
      | some t =>
        exfalso
        unfold patchHasValues at hpv
        rw [hpt] at hpv
        simp at hpv
    have hrc : routeTagConflict st id p = false := by
      unfold routeTagConflict
      rw [htag0]
    unfold updateRoute
    rw [hp]
    dsimp only
    rw [if_neg (by simp [hrc])]
    unfold updateAsset
    rw [if_pos (show (!patchHasValues p) = true by rw [hpv]; rfl)]
  · intro a b p ha hp hpv hkeep
    have hfind : st.assets.find? (fun x => x.id == a.id) = some a :=
      find?_eq_of_mem_unique (fun x => x.id) st.assets hid a ha
    have htagown : ∀ x ∈ st.assets, x.tag = a.tag → x = a := by
      intro x hx hxt
      exact mem_unique_field (fun y => y.tag) st.assets htags x hx a ha hxt
    have hrc : routeTagConflict st a.id p = false := by
      rcases hkeep with hptag | hptag
      · unfold routeTagConflict
        rw [hptag]
        dsimp only
        by_cases he : a.tag = ""
        · simp [he]
        · cases hg : getAssetByTag st a.tag with
          | none => simp
          | some x =>
            have hxa : x = a := by
              apply htagown x _ _
              · exact List.mem_of_find?_eq_some hg
              · have := List.find?_some hg
                exact beq_iff_eq.mp this
            subst hxa
            simp
      · unfold routeTagConflict
        rw [hptag]
    have huc : updConflict st a.id p = false := by
      rcases hkeep with hptag | hptag
      · unfold updConflict
        rw [hptag]
        dsimp only
        rw [Bool.or_eq_false_iff]
        constructor
        · rw [List.any_eq_false]
          intro x hx
          by_cases hxt : x.tag = a.tag
          · have hxa := htagown x hx hxt
            subst hxa
            simp
          · simp [beq_eq_false_iff_ne.mpr hxt]
        · rw [decide_eq_false_iff_not]
          have h2 : st.assets.countP (fun b => b.id == a.id) ≤ 1 :=
            countP_le_one_of_unique (fun x => x.id) a.id st.assets hid
          omega
      · unfold updConflict
        rw [hptag]
    unfold updateRoute
    rw [hp]
    dsimp only
    rw [if_neg (by simp [hrc])]
    unfold updateAsset
    rw [if_neg (show ¬(!patchHasValues p) = true by simp [hpv])]
    rw [hfind]
    dsimp only
    rw [if_neg (by simp [huc])]
    rw [find?_map_applyPatch, hfind]
    rfl

/-- C7 witness: in a two-asset well-formed store, a patch that omits the tag
(keeping asset 1's own tag) and carries only a new cost succeeds with the
merged asset and leaves the other row in place. -/
theorem C7_witness :
    updateRoute
        ⟨[⟨1, "A", "t", "TG", none, "1", none⟩, ⟨2, "B", "t", "TH", none, "2", none⟩], 3⟩ 1
        ⟨none, none, none, some (.str "9"), none, none⟩
      = (.updated ⟨1, "A", "t", "TG", none, "9", none⟩,
          ⟨[⟨1, "A", "t", "TG", none, "9", none⟩, ⟨2, "B", "t", "TH", none, "2", none⟩], 3⟩) :=
  (C7_update_semantics
      ⟨[⟨1, "A", "t", "TG", none, "1", none⟩, ⟨2, "B", "t", "TH", none, "2", none⟩], 3⟩
      (by unfold UniqueIds; decide) (by unfold NoDupTags; decide)).2.2.2
    ⟨1, "A", "t", "TG", none, "1", none⟩
    ⟨none, none, none, some (.str "9"), none, none⟩
    ⟨none, none, none, some "9", none, none⟩
    (by decide) rfl rfl (Or.inr rfl)

theorem orChain_head_truthy (r : Row) (k : String) (ks : List String)
    (h : jsTruthy (rowGet r k) = true) : orChain r (k :: ks) = rowGet r k := by
  cases ks with
  | nil => rfl
  | cons k1 ks =>
    show (if jsTruthy (rowGet r k) = true then rowGet r k else orChain r (k1 :: ks))
      = rowGet r k
    rw [if_pos h]

theorem orChain_head_falsy (r : Row) (k k1 : String) (ks : List String)
    (h : jsTruthy (rowGet r k) = false) :
    orChain r (k :: k1 :: ks) = orChain r (k1 :: ks) := by
  show (if jsTruthy (rowGet r k) = true then rowGet r k else orChain r (k1 :: ks)) = _
  rw [if_neg (by simp [h])]

theorem processRow_exportRow (n : Int) (i : ℕ) (a : Asset)
    (h1 : a.name ≠ "") (h2 : a.type ≠ "") (h3 : a.tag ≠ "") (h4 : a.cost ≠ "")
    (h5 : a.serialNumber ≠ some "") (h6 : a.acquisitionDate ≠ some "") :
    processRow ⟨[], n⟩ i (exportRow a) = .ok (stripId a) := by
  have hname : orChain (exportRow a) nameAliases = some (JsVal.str a.name) := by
    apply orChain_head_truthy
    rw [show rowGet (exportRow a) "Asset Name" = some (JsVal.str a.name) from rfl]
    simp [jsTruthy, truthy, beq_eq_false_iff_ne.mpr h1]
  have htype : orChain (exportRow a) typeAliases = some (JsVal.str a.type) := by
    apply orChain_head_truthy
    rw [show rowGet (exportRow a) "Asset Type" = some (JsVal.str a.type) from rfl]
    simp [jsTruthy, truthy, beq_eq_false_iff_ne.mpr h2]
  have htag : orChain (exportRow a) tagAliases = some (JsVal.str a.tag) := by
    apply orChain_head_truthy
    rw [show rowGet (exportRow a) "Asset Tag" = some (JsVal.str a.tag) from rfl]
    simp [jsTruthy, truthy, beq_eq_false_iff_ne.mpr h3]
  have hcost : orChain (exportRow a) costAliases = some (JsVal.str a.cost) := by
    apply orChain_head_truthy
    rw [show rowGet (exportRow a) "Cost" = some (JsVal.str a.cost) from rfl]
    simp [jsTruthy, truthy, beq_eq_false_iff_ne.mpr h4]
  have hserial : orChain (exportRow a) serialAliases
      = (a.serialNumber.map JsVal.str) := by
    cases hsn : a.serialNumber with
    | none =>
      show orChain (exportRow a) ("Serial Number" :: ["SerialNumber", "serial_number",
        "serial"]) = none
      rw [orChain_head_falsy _ _ _ _ (by
        rw [show rowGet (exportRow a) "Serial Number"
          = some (JsVal.str (a.serialNumber.getD "")) from rfl, hsn]
        rfl)]
      rfl
    | some s =>
      have hs : s ≠ "" := fun he => h5 (by rw [hsn, he])
      show orChain (exportRow a) ("Serial Number" :: ["SerialNumber", "serial_number",
        "serial"]) = some (JsVal.str s)
      rw [orChain_head_truthy _ _ _ (by
        rw [show rowGet (exportRow a) "Serial Number"
          = some (JsVal.str (a.serialNumber.getD "")) from rfl, hsn]
        simp [jsTruthy, truthy, beq_eq_false_iff_ne.mpr hs])]
      rw [show rowGet (exportRow a) "Serial Number"
        = some (JsVal.str (a.serialNumber.getD "")) from rfl, hsn]
      rfl
  have hdate : orChain (exportRow a) dateAliases
      = (a.acquisitionDate.map JsVal.str) := by
    cases hsn : a.acquisitionDate with
    | none =>
      show orChain (exportRow a) ("Acquisition Date" :: ["AcquisitionDate",
        "acquisition_date", "date"]) = none
      rw [orChain_head_falsy _ _ _ _ (by
        rw [show rowGet (exportRow a) "Acquisition Date"
          = some (JsVal.str (a.acquisitionDate.getD "")) from rfl, hsn]
        rfl)]
      rfl
    | some s =>
      have hs : s ≠ "" := fun he => h6 (by rw [hsn, he])
      show orChain (exportRow a) ("Acquisition Date" :: ["AcquisitionDate",
        "acquisition_date", "date"]) = some (JsVal.str s)
      rw [orChain_head_truthy _ _ _ (by
        rw [show rowGet (exportRow a) "Acquisition Date"
          = some (JsVal.str (a.acquisitionDate.getD "")) from rfl, hsn]
        simp [jsTruthy, truthy, beq_eq_false_iff_ne.mpr hs])]
      rw [show rowGet (exportRow a) "Acquisition Date"
        = some (JsVal.str (a.acquisitionDate.getD "")) from rfl, hsn]
      rfl
  unfold processRow
  dsimp only
  rw [hname, htype, htag, hcost, hserial, hdate]
  rw [if_neg (by
    simp [jsTruthy, truthy, beq_eq_false_iff_ne.mpr h1, beq_eq_false_iff_ne.mpr h2,
      beq_eq_false_iff_ne.mpr h3])]
  rw [show (getAssetByTag ⟨[], n⟩ (jsString ((some (JsVal.str a.tag)).getD .null))).isSome
    = false from rfl]
  simp only [Bool.false_eq_true, if_false]
  cases hsn : a.serialNumber with
  | none =>
    cases had : a.acquisitionDate with
    | none =>
      simp [insertAssetSchemaParse, insertErrs, isStringVal, isNullableOptString,
        getStr, getOptStr, jsTruthy, jsString, stripId, hsn, had]
    | some d =>
      have hd : d ≠ "" := fun he => h6 (by rw [had, he])
      simp [insertAssetSchemaParse, insertErrs, isStringVal, isNullableOptString,
        getStr, getOptStr, jsTruthy, truthy, jsString, stripId, hsn, had,
        beq_eq_false_iff_ne.mpr hd]
  | some s =>
    have hs : s ≠ "" := fun he => h5 (by rw [hsn, he])
    cases had : a.acquisitionDate with
    | none =>
      simp [insertAssetSchemaParse, insertErrs, isStringVal, isNullableOptString,
        getStr, getOptStr, jsTruthy, truthy, jsString, stripId, hsn, had,
        beq_eq_false_iff_ne.mpr hs]
    | some d =>
      have hd : d ≠ "" := fun he => h6 (by rw [had, he])
      simp [insertAssetSchemaParse, insertErrs, isStringVal, isNullableOptString,
        getStr, getOptStr, jsTruthy, truthy, jsString, stripId, hsn, had,
        beq_eq_false_iff_ne.mpr hs, beq_eq_false_iff_ne.mpr hd]

theorem scanRowsAux_export (n : Int) :
    ∀ (l : List Asset),
      (∀ a ∈ l, a.name ≠ "" ∧ a.type ≠ "" ∧ a.tag ≠ "" ∧ a.cost ≠ ""
        ∧ a.serialNumber ≠ some "" ∧ a.acquisitionDate ≠ some "") →
      ∀ i, scanRowsAux ⟨[], n⟩ i (l.map exportRow) = (l.map stripId, []) := by
  intro l
  induction l with
  | nil => intro _ i; rfl
  | cons a l ih =>
    intro hf i
    have ha := hf a (List.mem_cons_self a l)
    have hpr := processRow_exportRow n i a ha.1 ha.2.1 ha.2.2.1 ha.2.2.2.1
      ha.2.2.2.2.1 ha.2.2.2.2.2
    show (match processRow ⟨[], n⟩ i (exportRow a) with
      | .ok b => (b :: (scanRowsAux ⟨[], n⟩ (i + 1) (l.map exportRow)).1,
          (scanRowsAux ⟨[], n⟩ (i + 1) (l.map exportRow)).2)
      | .err m => ((scanRowsAux ⟨[], n⟩ (i + 1) (l.map exportRow)).1,
          m :: (scanRowsAux ⟨[], n⟩ (i + 1) (l.map exportRow)).2))
      = ((a :: l).map stripId, [])
    rw [hpr, ih (fun x hx => hf x (List.mem_cons_of_mem a hx)) (i + 1)]
    rfl

/-- C8 counterexample: a persisted asset with an empty name — reachable,
since the create route accepts `name: ""` (201) — breaks the round trip:
its exported row is rejected on import against the empty store as missing
required fields, so nothing is reproduced and there is one row error
instead of zero. -/
theorem C8_counterexample :
    createRoute ⟨[], 1⟩
        ⟨some (.str ""), some (.str "t"), some (.str "T"), some (.str "1"), none, none⟩
      = (.created ⟨1, "", "t", "T", none, "1", none⟩,
          ⟨[⟨1, "", "t", "T", none, "1", none⟩], 2⟩)
    ∧ importRoute ⟨[], 1⟩ (exportAssets ⟨[⟨1, "", "t", "T", none, "1", none⟩], 2⟩)
      = (.noValid [missingMsg 0], ⟨[], 1⟩) := ⟨rfl, rfl⟩

/-- C8 (amended): for every nonempty set of persisted assets with pairwise
distinct tags whose name, type, tag and cost are non-empty and whose
optional fields are not the empty string (absent is fine), exporting them
and importing the workbook against an empty store succeeds with zero row
errors, reports every row imported, and reproduces the same assets equal in
all fields except the newly assigned ids. -/
theorem C8_roundtrip (st : StoreState) (n : Int) (hne : st.assets ≠ [])
    (hdup : NoDupTags st)
    (hf : ∀ a ∈ st.assets, a.name ≠ "" ∧ a.type ≠ "" ∧ a.tag ≠ "" ∧ a.cost ≠ ""
      ∧ a.serialNumber ≠ some "" ∧ a.acquisitionDate ≠ some "") :
    importRoute ⟨[], n⟩ (exportAssets st)
      = (.success st.assets.length none (assignIds n (st.assets.map stripId)),
          ⟨assignIds n (st.assets.map stripId), n + (st.assets.length : Int)⟩)
    ∧ (assignIds n (st.assets.map stripId)).map stripId = st.assets.map stripId := by
  have hscan : scanRows ⟨[], n⟩ (exportAssets st) = (st.assets.map stripId, []) :=
    scanRowsAux_export n st.assets hf 0
  constructor
  · have hre : (exportAssets st).isEmpty = false := by
      unfold exportAssets
      cases hq : st.assets with
      | nil => exact absurd hq hne
      | cons x l => rfl
    have hme : (st.assets.map stripId).isEmpty = false := by
      cases hq : st.assets with
      | nil => exact absurd hq hne
      | cons x l => rfl
    have hok : batchTagsOk ([] : List Asset) (st.assets.map stripId) = true := by
      apply batchTagsOk_intro
      · intro x _; rfl
      · have he : (st.assets.map stripId).map (fun a => a.tag)
            = st.assets.map (fun a => a.tag) := by
          rw [List.map_map]; rfl
        rw [he]; exact hdup
    unfold importRoute
    dsimp only
    rw [hre]
    simp only [Bool.false_eq_true, if_false]
    rw [hscan]
    simp only [List.isEmpty_nil, Bool.not_true, Bool.false_and, Bool.false_eq_true,
      if_false]
    unfold createManyAssets
    rw [hme, hok]
    simp only [Bool.false_eq_true, if_false, if_true]
    rw [length_assignIds, List.length_map, List.nil_append]
  · exact map_stripId_assignIds n (st.assets.map stripId)

/-- C8 witness: a concrete two-asset store round-trips through export and
an import against the empty store: both rows import with fresh ids 1 and 2,
no errors, and the same field contents. -/
theorem C8_witness :
    importRoute ⟨[], 1⟩ (exportAssets
        ⟨[⟨5, "Dell", "laptop", "LP-1", some "SN1", "1200.00", some "2024-01-01"⟩,
          ⟨7, "Chair", "furniture", "FU-2", none, "300", none⟩], 8⟩)
      = (.success 2 none
          [⟨1, "Dell", "laptop", "LP-1", some "SN1", "1200.00", some "2024-01-01"⟩,
            ⟨2, "Chair", "furniture", "FU-2", none, "300", none⟩],
          ⟨[⟨1, "Dell", "laptop", "LP-1", some "SN1", "1200.00", some "2024-01-01"⟩,
            ⟨2, "Chair", "furniture", "FU-2", none, "300", none⟩], 3⟩) :=
  (C8_roundtrip
      ⟨[⟨5, "Dell", "laptop", "LP-1", some "SN1", "1200.00", some "2024-01-01"⟩,
        ⟨7, "Chair", "furniture", "FU-2", none, "300", none⟩], 8⟩
      1 (by decide) (by unfold NoDupTags; decide) (by decide)).1

end AssetTracker
